import Mathlib

/-!
Shallow embedding of the News_Scraper repository
(src/news_summarizer.py and src/scheduler.py) and proofs about it.

External effects (the Perplexity search and chat endpoints, the file
system, the wall clock) are modelled as explicit parameters:
the two API endpoints become call-indexed oracles, exceptions become
Except values, and the Python dict becomes an insertion-ordered
association list with overwrite-in-place semantics.
-/

set_option autoImplicit false

namespace NewsScraper

/-! ## Data model -/

/-- A search result, as consumed by news_summarizer.py: the fields
title, url and snippet of the objects in search.results. -/
structure Article where
  title : String
  url : String
  snippet : String
  deriving DecidableEq

/-- One entry of a per-topic summary list, as built at
news_summarizer.py lines 200-205. -/
structure ArticleSummary where
  title : String
  summary : String
  url : String
  snippet : String
  deriving DecidableEq

/-- A Python exception value as seen by this program. `adapter` stands
for any raw exception raised by the Perplexity client (transport,
authentication, quota, ...). `summarizationError` is Modelled from the
spec: the dedicated wrapper type `SummarizationError` that section 4.2
of the spec describes; no such class exists anywhere in src/, the
constructor exists only so that the spec claim about it can be stated. -/
inductive PyError where
  | adapter (msg : String)
  | summarizationError (inner : PyError)
  deriving DecidableEq

/-- Whether an exception value is the dedicated wrapper type that the
spec calls `SummarizationError`. -/
def isSummarizationError : PyError → Bool
  | PyError.summarizationError _ => true
  | _ => false

/-! ## Python dict model

Insertion-ordered association list. `dictSet` has the semantics of
`d[k] = v`: an existing key keeps its position and gets the new value,
a new key is appended at the end. `dictLookup` returns the first
binding of the key. -/

def dictSet {α : Type} : List (String × α) → String → α → List (String × α)
  | [], k, v => [(k, v)]
  | (k1, v1) :: rest, k, v =>
    if k1 = k then (k, v) :: rest else (k1, v1) :: dictSet rest k v

def dictLookup {α : Type} : List (String × α) → String → Option α
  | [], _ => none
  | (k1, v) :: rest, k => if k1 = k then some v else dictLookup rest k

/-- The keys of a dict, in insertion order. -/
def dictKeys {α : Type} (d : List (String × α)) : List String :=
  d.map Prod.fst

/-- The first option if it is some, the fallback otherwise. -/
def orDefault {α : Type} (x fallback : Option α) : Option α :=
  match x with
  | some v => some v
  | none => fallback

/-- `d.update(u)` of Python: set every binding of `u`, in order. -/
def dictUpdate {α : Type} (d : List (String × α)) :
    List (String × α) → List (String × α)
  | [] => d
  | (k, v) :: rest => dictUpdate (dictSet d k v) rest

/-! ## Config loading (news_summarizer.py lines 19-56) -/

/-- A JSON value as far as the config file uses them. -/
inductive CVal where
  | str (s : String)
  | int (n : Int)
  | bool (b : Bool)
  | strList (l : List String)
  deriving DecidableEq

/-- The default_config dict of load_config (lines 29-41). -/
def default_config : List (String × CVal) :=
  [("topics", CVal.strList ["general news"]),
   ("articles_per_topic", CVal.int 5),
   ("model", CVal.str "sonar"),
   ("max_tokens", CVal.int 200),
   ("days_back", CVal.int 1),
   ("max_results", CVal.int 10),
   ("summary_prompt", CVal.str "Summarize the following news article in 2-3 concise sentences. Focus on the key facts and main points:"),
   ("auto_save", CVal.bool false),
   ("output_directory", CVal.str "briefs"),
   ("date_format", CVal.str "%B %d, %Y"),
   ("query_suffix", CVal.str "today")]

/-- The state of the config file on disk: missing, unreadable or
invalid JSON, or a successfully parsed JSON object (its key/value
pairs in file order). -/
inductive ConfigSource where
  | absent
  | malformed
  | valid (user : List (String × CVal))

/-- load_config (lines 19-56): on a parsed user config the defaults are
merged via `default_config.update(user_config)`; a missing or
malformed file yields the defaults. -/
def load_config : ConfigSource → List (String × CVal)
  | ConfigSource.absent => default_config
  | ConfigSource.malformed => default_config
  | ConfigSource.valid user => dictUpdate default_config user

/-! ## The summarizer

The NewsSummarizer instance fields, i.e. the values the constructor
reads out of the config dict with .get and its defaults
(lines 87-91, plus config.get at lines 106-107). -/

structure Config where
  model : String := "sonar"
  max_tokens : Int := 200
  summary_prompt : String := "Summarize the following news article in 2-3 concise sentences. Focus on the key facts and main points:"
  query_suffix : String := "today"
  max_results : Int := 10
  days_back : Int := 1

def defaultCfg : Config := {}

/-- The request handed to self.client.search.create (lines 119-124).
Dates are modelled as integer day numbers instead of formatted
MM/DD/YYYY strings: `before` is today, `after` is today minus the
effective days_back. -/
structure SearchRequest where
  query : String
  max_results : Int
  after : Int
  before : Int
  deriving DecidableEq

/-- The two external API endpoints, as call-indexed oracles: the n-th
search call and the n-th chat call of a cycle may each succeed with a
value or raise an exception. The chat oracle receives the prompt and
the effective max_tokens. -/
structure Oracles where
  search : Nat → SearchRequest → Except PyError (List Article)
  chat : Nat → String → Int → Except PyError String

/-- The Python idiom `x or d` on an optional integer argument: None and
0 are falsy and fall back to `d`; every other integer is kept
(lines 106-107 and 139). -/
def pyOrInt (x : Option Int) (d : Int) : Int :=
  match x with
  | none => d
  | some n => if n = 0 then d else n

/-- Line 117: query = f"{topic} {suffix}" if suffix else topic.
An empty string is falsy in Python. -/
def buildQuery (query_suffix topic : String) : String :=
  if query_suffix = "" then topic else topic ++ " " ++ query_suffix

/-- The search request fetch_news builds for a topic, given the current
day number and the optional arguments (lines 105-124). -/
def mkRequest (cfg : Config) (now : Int) (topic : String)
    (max_results days_back : Option Int) : SearchRequest :=
  { query := buildQuery cfg.query_suffix topic
    max_results := pyOrInt max_results cfg.max_results
    after := now - pyOrInt days_back cfg.days_back
    before := now }

/-- fetch_news (lines 93-126): resolve the optional arguments against
the config, build the query and date window, and issue the search call
number `i`. The raw search error, if any, propagates to the caller. -/
def fetch_news (o : Oracles) (cfg : Config) (now : Int) (i : Nat)
    (topic : String) (max_results days_back : Option Int) :
    Except PyError (List Article) :=
  o.search i (mkRequest cfg now topic max_results days_back)

/-- The prompt string built at lines 141-144. -/
def mkPrompt (cfg : Config) (a : Article) : String :=
  cfg.summary_prompt ++ "\n\nTitle: " ++ a.title ++ "\nContent: " ++ a.snippet

/-- Python str.strip() with no argument: remove whitespace from both
ends of the string. -/
def pyStrip (s : String) : String :=
  String.mk (((s.data.dropWhile Char.isWhitespace).reverse.dropWhile
    Char.isWhitespace).reverse)

/-- summarize_article (lines 128-154): resolve max_tokens, issue chat
call number `c` with the prompt, and return the content stripped of
surrounding whitespace. There is no try/except here: a chat exception
propagates to the caller unchanged. -/
def summarize_article (o : Oracles) (cfg : Config) (c : Nat)
    (a : Article) (max_tokens : Option Int) : Except PyError String :=
  match o.chat c (mkPrompt cfg a) (pyOrInt max_tokens cfg.max_tokens) with
  | Except.error e => Except.error e
  | Except.ok content => Except.ok (pyStrip content)

/-- The per-topic URL dedup loop (lines 185-191): walk the articles,
keep one whose url is not in the seen set, append it to the output. -/
def dedupLoop : List Article → List String → List Article → List Article
  | [], _, acc => acc
  | a :: rest, seen, acc =>
    if a.url ∈ seen then dedupLoop rest seen acc
    else dedupLoop rest (a.url :: seen) (acc ++ [a])

def uniqueArticles (articles : List Article) : List Article :=
  dedupLoop articles [] []

/-- The dict literal appended at lines 200-205. -/
def mkASummary (a : Article) (s : String) : ArticleSummary :=
  { title := a.title, summary := s, url := a.url, snippet := a.snippet }

/-- The per-article summarization loop (lines 196-208): for each unique
article try summarize_article; on success append the summary dict, on
any exception drop the article and continue. Returns the list and the
next chat call index. -/
def summLoop (o : Oracles) (cfg : Config) :
    List Article → Nat → List ArticleSummary → List ArticleSummary × Nat
  | [], c, acc => (acc, c)
  | a :: rest, c, acc =>
    match summarize_article o cfg c a none with
    | Except.ok s => summLoop o cfg rest (c + 1) (acc ++ [mkASummary a s])
    | Except.error _ => summLoop o cfg rest (c + 1) acc

/-- A Brief: the dict mapping each topic to its summary list. -/
def Brief : Type := List (String × List ArticleSummary)

/-- The per-topic loop of create_daily_brief (lines 172-211), threading
the brief dict and the two oracle call counters. The fetch call is not
wrapped in a try/except, so a search error aborts the whole loop. -/
def briefLoop (o : Oracles) (cfg : Config) (now : Int) (apt : Int) :
    List String → Nat → Nat → Brief → Except PyError (Brief × Nat × Nat)
  | [], s, c, b => Except.ok (b, s, c)
  | t :: rest, s, c, b =>
    match fetch_news o cfg now s t (some apt) none with
    | Except.error e => Except.error e
    | Except.ok articles =>
      if articles.length = 0 then
        briefLoop o cfg now apt rest (s + 1) c (dictSet b t [])
      else
        match summLoop o cfg (uniqueArticles articles) c [] with
        | (tsums, c1) => briefLoop o cfg now apt rest (s + 1) c1 (dictSet b t tsums)

/-- create_daily_brief (lines 156-213): topics defaults to
["general news"], articles_per_topic defaults to 5; the brief dict
starts empty and the oracle call counters at 0. -/
def create_daily_brief (o : Oracles) (cfg : Config) (now : Int)
    (topics : Option (List String)) (articles_per_topic : Int := 5) :
    Except PyError Brief :=
  match briefLoop o cfg now articles_per_topic
      (topics.getD ["general news"]) 0 0 [] with
  | Except.error e => Except.error e
  | Except.ok (b, _, _) => Except.ok b

/-! ## Scheduler (scheduler.py) -/

/-- run_news_summarizer (scheduler.py lines 12-25): main() is run under
a try/except that swallows every exception, so the function returns
normally whatever the cycle did. -/
def run_news_summarizer (mainResult : Except PyError Unit) :
    Except PyError Unit :=
  match mainResult with
  | Except.ok _ => Except.ok ()
  | Except.error _ => Except.ok ()

/-- The polling loop state: current wall-clock time and the next
scheduled fire time, both in seconds. -/
structure SchedState where
  now : Nat
  nextRun : Nat
  deriving DecidableEq

/-- time.sleep(60) at scheduler.py line 57. -/
def pollInterval : Nat := 60

/-- schedule.every(3).days at scheduler.py line 36. -/
def periodSeconds : Nat := 3 * 86400

/-- One iteration of the while loop at scheduler.py lines 55-57:
schedule.run_pending() fires run_news_summarizer when the fire time
has arrived (rescheduling the job periodSeconds later), then the loop
sleeps one poll interval. The result records the new state and whether
a cycle was triggered; an Except.error result would mean an exception
escaped the loop body and ended the loop. -/
def loopTick (mainResult : Except PyError Unit) (s : SchedState) :
    Except PyError (SchedState × Bool) :=
  if s.nextRun ≤ s.now then
    match run_news_summarizer mainResult with
    | Except.error e => Except.error e
    | Except.ok _ =>
      Except.ok ({ now := s.now + pollInterval, nextRun := s.now + periodSeconds }, true)
  else
    Except.ok ({ now := s.now + pollInterval, nextRun := s.nextRun }, false)

/-- n iterations of the polling loop with a fixed cycle outcome,
counting how many cycles were triggered. -/
def loopRun (mainResult : Except PyError Unit) :
    Nat → SchedState → Except PyError (SchedState × Nat)
  | 0, s => Except.ok (s, 0)
  | n + 1, s =>
    match loopTick mainResult s with
    | Except.error e => Except.error e
    | Except.ok (s1, ran) =>
      match loopRun mainResult n s1 with
      | Except.error e => Except.error e
      | Except.ok (s2, cnt) => Except.ok (s2, cnt + (if ran then 1 else 0))

/-- The state right after a due tick fired a cycle. -/
def afterFire (s : SchedState) : SchedState :=
  { now := s.now + pollInterval, nextRun := s.now + periodSeconds }

/-- How many idle ticks pass before the fire time is reached again. -/
def waitTicks (s : SchedState) : Nat :=
  (s.nextRun - s.now + (pollInterval - 1)) / pollInterval

/-- The state after idling waitTicks ticks. -/
def finalIdle (s : SchedState) : SchedState :=
  { now := s.now + pollInterval * waitTicks s, nextRun := s.nextRun }

/-! ## Spec-side definitions (for refinement comparisons) -/

/-- Modelled from the spec words for the dedup step: the distinct urls
of a batch, each exactly once, in first-seen order. Stated
independently of the source loop so the two can be compared. -/
def specFirstSeenUrls : List String → List String
  | [] => []
  | u :: rest => u :: specFirstSeenUrls (rest.filter (fun x => x ≠ u))
termination_by l => l.length
decreasing_by
  simp only [List.length_cons]
  exact Nat.lt_succ_of_le (List.length_filter_le _ _)

/-- The summaries the per-article loop accumulates, written as a
structural recursion: article at relative position i uses chat call
c + i; a failing call contributes nothing, a successful call
contributes its summary dict. Proved equal to summLoop below. -/
def summariesFrom (o : Oracles) (cfg : Config) : Nat → List Article → List ArticleSummary
  | _, [] => []
  | c, a :: rest =>
    match summarize_article o cfg c a none with
    | Except.ok s => mkASummary a s :: summariesFrom o cfg (c + 1) rest
    | Except.error _ => summariesFrom o cfg (c + 1) rest

/-! ## Concrete fixtures used by witnesses and counterexamples -/

def artA : Article := { title := "TA", url := "http://a", snippet := "SA" }

def artB : Article := { title := "TB", url := "http://b", snippet := "SB" }

def artA2 : Article := { title := "TA again", url := "http://a", snippet := "SA2" }

def artC : Article := { title := "TC", url := "http://c", snippet := "SC" }

/-- Chat adapter that always raises; search returns nothing. -/
def oChatFail : Oracles :=
  { search := fun _ _ => Except.ok []
    chat := fun _ _ _ => Except.error (PyError.adapter "quota") }

/-- Chat adapter that always answers with padded text. -/
def oChatOk : Oracles :=
  { search := fun _ _ => Except.ok []
    chat := fun _ _ _ => Except.ok " hi " }

/-- Search returns three distinct articles; the chat call for the
second one (call index 1) raises, the others succeed. -/
def oOneFailing : Oracles :=
  { search := fun _ _ => Except.ok [artA, artB, artC]
    chat := fun c _ _ =>
      if c = 1 then Except.error (PyError.adapter "boom") else Except.ok "sum" }

/-- Search returns a batch with a duplicated url; chat always works. -/
def oDupBatch : Oracles :=
  { search := fun _ _ => Except.ok [artA, artB, artA2, artC]
    chat := fun _ _ _ => Except.ok "sum" }

/-- The second search call of the cycle raises; the others return one
article. -/
def oSecondFetchFails : Oracles :=
  { search := fun i _ =>
      if i = 1 then Except.error (PyError.adapter "search down") else Except.ok [artA]
    chat := fun _ _ _ => Except.ok "sum" }

/-- The second search call returns zero articles; the others one. -/
def oSecondFetchEmpty : Oracles :=
  { search := fun i _ =>
      if i = 1 then Except.ok [] else Except.ok [artA]
    chat := fun _ _ _ => Except.ok "sum" }

/-- The two search calls return different single articles, so the two
occurrences of a duplicated topic are distinguishable. -/
def oTwoBatches : Oracles :=
  { search := fun i _ => if i = 0 then Except.ok [artA] else Except.ok [artB]
    chat := fun _ _ _ => Except.ok "sum" }

/-- A search adapter that answers every request with the same batch. -/
def oAny : Oracles :=
  { search := fun _ _ => Except.ok []
    chat := fun _ _ _ => Except.ok "sum" }

def cfgNoSuffix : Config := { query_suffix := "" }

/-! ## Dict lemmas -/

theorem dictLookup_append {α : Type} (d1 d2 : List (String × α)) (k : String) :
    dictLookup (d1 ++ d2) k =
      orDefault (dictLookup d1 k) (dictLookup d2 k) := by
  induction d1 with
  | nil => simp [dictLookup, orDefault]
  | cons p rest ih =>
    obtain ⟨k1, v⟩ := p
    by_cases h : k1 = k <;> simp [dictLookup, orDefault, h, ih]

theorem dictKeys_cons {α : Type} (p : String × α) (rest : List (String × α)) :
    dictKeys (p :: rest) = p.1 :: dictKeys rest := rfl

theorem dictLookup_dictSet_self {α : Type} (d : List (String × α))
    (k : String) (v : α) : dictLookup (dictSet d k v) k = some v := by
  induction d with
  | nil => simp [dictSet, dictLookup]
  | cons p rest ih =>
    obtain ⟨k1, v1⟩ := p
    by_cases h : k1 = k
    · simp [dictSet, dictLookup, h]
    · simp [dictSet, dictLookup, h, ih]

theorem dictLookup_dictSet_ne {α : Type} (d : List (String × α))
    (k k1 : String) (v : α) (h : k1 ≠ k) :
    dictLookup (dictSet d k v) k1 = dictLookup d k1 := by
  have hne : ¬ k = k1 := fun hh => h hh.symm
  induction d with
  | nil => simp [dictSet, dictLookup, hne]
  | cons p rest ih =>
    obtain ⟨k2, v2⟩ := p
    by_cases hk : k2 = k
    · subst hk
      simp [dictSet, dictLookup, hne]
    · by_cases hk1 : k2 = k1
      · subst hk1
        simp [dictSet, dictLookup, hk]
      · simp [dictSet, dictLookup, hk, hk1, ih]

theorem dictLookup_isSome_iff {α : Type} (d : List (String × α)) (k : String) :
    (dictLookup d k).isSome = true ↔ k ∈ dictKeys d := by
  induction d with
  | nil => simp [dictLookup, dictKeys]
  | cons p rest ih =>
    obtain ⟨k1, v⟩ := p
    by_cases h : k1 = k
    · subst h
      simp [dictLookup, dictKeys_cons]
    · have h2 : ¬ k = k1 := fun hh => h hh.symm
      simp only [dictLookup, if_neg h, dictKeys_cons, List.mem_cons]
      rw [ih]
      simp [h2]

theorem dictKeys_dictSet {α : Type} (d : List (String × α)) (k : String) (v : α) :
    dictKeys (dictSet d k v) =
      if k ∈ dictKeys d then dictKeys d else dictKeys d ++ [k] := by
  induction d with
  | nil => simp [dictSet, dictKeys]
  | cons p rest ih =>
    obtain ⟨k1, v1⟩ := p
    by_cases h : k1 = k
    · subst h
      simp [dictSet, dictKeys_cons]
    · have h2 : ¬ k = k1 := fun hh => h hh.symm
      simp only [dictSet, if_neg h, dictKeys_cons, List.mem_cons]
      rw [ih]
      by_cases hm : k ∈ dictKeys rest <;> simp [hm, h2]

theorem dictKeys_dictSet_nodup {α : Type} (d : List (String × α))
    (k : String) (v : α) (h : (dictKeys d).Nodup) :
    (dictKeys (dictSet d k v)).Nodup := by
  rw [dictKeys_dictSet]
  split
  · exact h
  · rename_i hnot
    simp [List.nodup_append, h, hnot]

theorem dictUpdate_lookup {α : Type} (u d : List (String × α)) (k : String) :
    dictLookup (dictUpdate d u) k =
      orDefault (dictLookup u.reverse k) (dictLookup d k) := by
  induction u generalizing d with
  | nil => simp [dictUpdate, dictLookup, orDefault]
  | cons p rest ih =>
    obtain ⟨k0, v0⟩ := p
    simp only [dictUpdate, List.reverse_cons]
    rw [ih, dictLookup_append]
    cases hr : dictLookup rest.reverse k with
    | some v => simp [orDefault]
    | none =>
      by_cases h : k0 = k
      · subst h
        simp [dictLookup, orDefault, dictLookup_dictSet_self]
      · simp [dictLookup, orDefault, h,
          dictLookup_dictSet_ne d k0 k v0 (fun hh => h hh.symm)]

/-! ## Small lemmas about the optional-argument idiom -/

theorem pyOrInt_none (d : Int) : pyOrInt none d = d := rfl

theorem pyOrInt_some_zero (d : Int) : pyOrInt (some 0) d = d := by
  simp [pyOrInt]

theorem pyOrInt_some_self (d : Int) : pyOrInt (some d) d = d := by
  unfold pyOrInt
  exact ite_self d

/-- briefLoop only looks at articles_per_topic through the effective
max_results it induces, so two values inducing the same effective
max_results are interchangeable. -/
theorem briefLoop_apt_congr (o : Oracles) (cfg : Config) (now : Int)
    (a1 a2 : Int)
    (h : pyOrInt (some a1) cfg.max_results = pyOrInt (some a2) cfg.max_results) :
    ∀ (ts : List String) (s c : Nat) (b : Brief),
      briefLoop o cfg now a1 ts s c b = briefLoop o cfg now a2 ts s c b := by
  intro ts
  induction ts with
  | nil => intro s c b; rfl
  | cons t rest ih =>
    intro s c b
    have hreq : mkRequest cfg now t (some a1) none = mkRequest cfg now t (some a2) none := by
      simp [mkRequest, h]
    simp only [briefLoop, fetch_news, hreq]
    cases o.search s (mkRequest cfg now t (some a2) none) with
    | error e => rfl
    | ok articles =>
      by_cases hlen : articles.length = 0
      · simp only [if_pos hlen]
        exact ih (s + 1) c (dictSet b t [])
      · simp only [if_neg hlen]
        cases summLoop o cfg (uniqueArticles articles) c [] with
        | mk tsums c1 => exact ih (s + 1) c1 (dictSet b t tsums)

/-! ## Claim C7 (config merge) -/

/-- C7, counterexample: the claim says unknown keys are ignored and
absent from the effective config. In the code load_config merges with
dict.update, which keeps unknown keys: a user config holding only the
unrecognized key custom_key yields an effective config in which
custom_key is present (bound to its user value), not absent. -/
theorem load_config_keeps_unknown_key_counterexample :
    dictLookup (load_config (ConfigSource.valid [("custom_key", CVal.int 1)]))
      "custom_key" = some (CVal.int 1) := by
  rfl

/-- C7, amended: the effective config is the defaults updated by the
user mapping. Recognized and unrecognized user keys alike are bound to
their (last) user value; keys the user does not supply keep their
default value; a malformed or missing config source yields exactly the
defaults. Unknown keys are NOT absent from the effective config. -/
theorem load_config_merge_characterization :
    (∀ (u : List (String × CVal)) (k : String),
        dictLookup (load_config (ConfigSource.valid u)) k =
          orDefault (dictLookup u.reverse k) (dictLookup default_config k)) ∧
    load_config ConfigSource.malformed = default_config ∧
    load_config ConfigSource.absent = default_config := by
  refine ⟨fun u k => ?_, rfl, rfl⟩
  simp only [load_config]
  exact dictUpdate_lookup u default_config k

/-! ## Claim C5 (summarization step) -/

/-- C5, counterexample: the claim says a failing chat call surfaces a
dedicated SummarizationError wrapping the adapter error. In the code
summarize_article has no try/except and no such wrapper type exists:
on a chat failure the caller receives the raw adapter exception
itself, which is not of the dedicated wrapper kind. -/
theorem summarize_article_error_not_wrapped_counterexample :
    summarize_article oChatFail defaultCfg 0 artA none =
      Except.error (PyError.adapter "quota") ∧
    isSummarizationError (PyError.adapter "quota") = false := ⟨rfl, rfl⟩

/-- C5, amended: when the chat adapter call inside summarize_article
fails, the raw adapter error propagates to the caller unchanged (there
is no dedicated SummarizationError wrapper; the caller in
create_daily_brief catches it as a broad per-article exception); on
success summarize_article returns the generated text with surrounding
whitespace trimmed. -/
theorem summarize_article_propagates_raw_error (o : Oracles) (cfg : Config)
    (c : Nat) (a : Article) :
    (∀ e, o.chat c (mkPrompt cfg a) cfg.max_tokens = Except.error e →
        summarize_article o cfg c a none = Except.error e) ∧
    (∀ s, o.chat c (mkPrompt cfg a) cfg.max_tokens = Except.ok s →
        summarize_article o cfg c a none = Except.ok (pyStrip s)) := by
  constructor
  · intro e h
    simp [summarize_article, pyOrInt, h]
  · intro s h
    simp [summarize_article, pyOrInt, h]

theorem summarize_article_propagates_raw_error_witness :
    summarize_article oChatFail defaultCfg 0 artA none =
      Except.error (PyError.adapter "quota") ∧
    summarize_article oChatOk defaultCfg 0 artA none = Except.ok "hi" := by
  constructor
  · exact (summarize_article_propagates_raw_error oChatFail defaultCfg 0 artA).1
      (PyError.adapter "quota") rfl
  · have h := (summarize_article_propagates_raw_error oChatOk defaultCfg 0 artA).2
      " hi " rfl
    exact h.trans (congrArg Except.ok (by rfl))

/-! ## Claim C8 (query construction) -/

/-- C8: the query fetch_news hands to the search adapter is the topic
text, with a space and the configured suffix appended when the suffix
is non-empty, and unmodified when the suffix is empty. -/
theorem fetch_news_query_construction (o : Oracles) (cfg : Config)
    (now : Int) (i : Nat) (topic : String) (mr db : Option Int) :
    (cfg.query_suffix ≠ "" →
      fetch_news o cfg now i topic mr db =
        o.search i { query := topic ++ " " ++ cfg.query_suffix,
                     max_results := pyOrInt mr cfg.max_results,
                     after := now - pyOrInt db cfg.days_back,
                     before := now }) ∧
    (cfg.query_suffix = "" →
      fetch_news o cfg now i topic mr db =
        o.search i { query := topic,
                     max_results := pyOrInt mr cfg.max_results,
                     after := now - pyOrInt db cfg.days_back,
                     before := now }) := by
  constructor
  · intro h
    simp [fetch_news, mkRequest, buildQuery, h]
  · intro h
    simp [fetch_news, mkRequest, buildQuery, h]

theorem fetch_news_query_construction_witness :
    fetch_news oAny defaultCfg 7 0 "tech" none none =
      oAny.search 0 { query := "tech today", max_results := 10, after := 6, before := 7 } ∧
    fetch_news oAny cfgNoSuffix 7 0 "tech" none none =
      oAny.search 0 { query := "tech", max_results := 10, after := 6, before := 7 } := by
  constructor
  · have h := (fetch_news_query_construction oAny defaultCfg 7 0 "tech" none none).1
      (by decide)
    exact h.trans (by rfl)
  · have h := (fetch_news_query_construction oAny cfgNoSuffix 7 0 "tech" none none).2 rfl
    exact h.trans (by rfl)

/-! ## Claim C10 (zero falls back to config defaults) -/

/-- C10: passing 0 for max_results or days_back is the same as passing
none at all, because of the Python `x or default` idiom; in
particular the search adapter is asked for the config max_results, and
create_daily_brief with articles_per_topic = 0 behaves exactly as if
the config max_results (default 10) had been requested per topic. -/
theorem zero_argument_falls_back_to_config (o : Oracles) (cfg : Config)
    (now : Int) (i : Nat) (topic : String) :
    (∀ db, fetch_news o cfg now i topic (some 0) db =
        fetch_news o cfg now i topic none db) ∧
    (∀ mr, fetch_news o cfg now i topic mr (some 0) =
        fetch_news o cfg now i topic mr none) ∧
    fetch_news o cfg now i topic (some 0) (some 0) =
      o.search i { query := buildQuery cfg.query_suffix topic,
                   max_results := cfg.max_results,
                   after := now - cfg.days_back,
                   before := now } ∧
    (∀ topics, create_daily_brief o cfg now topics 0 =
        create_daily_brief o cfg now topics cfg.max_results) ∧
    defaultCfg.max_results = 10 := by
  refine ⟨?_, ?_, ?_, ?_, rfl⟩
  · intro db
    simp [fetch_news, mkRequest, pyOrInt_some_zero, pyOrInt_none]
  · intro mr
    simp [fetch_news, mkRequest, pyOrInt_some_zero, pyOrInt_none]
  · simp [fetch_news, mkRequest, pyOrInt_some_zero, pyOrInt_none]
  · intro topics
    unfold create_daily_brief
    rw [briefLoop_apt_congr o cfg now 0 cfg.max_results
      ((pyOrInt_some_zero cfg.max_results).trans (pyOrInt_some_self cfg.max_results).symm)]

/-! ## Lemmas about first-seen dedup -/

theorem specFirstSeenUrls_mem_aux :
    ∀ (n : Nat) (l : List String), l.length ≤ n →
      ∀ x ∈ specFirstSeenUrls l, x ∈ l := by
  intro n
  induction n with
  | zero =>
    intro l hl x hx
    have hnil : l = [] := List.eq_nil_of_length_eq_zero (Nat.le_zero.mp hl)
    subst hnil
    simp [specFirstSeenUrls] at hx
  | succ n ih =>
    intro l hl x hx
    cases l with
    | nil => simp [specFirstSeenUrls] at hx
    | cons u rest =>
      simp only [specFirstSeenUrls, List.mem_cons] at hx
      rcases hx with rfl | hx2
      · exact List.mem_cons_self _ _
      · have hlen : (rest.filter (fun x => x ≠ u)).length ≤ n := by
          have h1 := List.length_filter_le (fun x => decide (x ≠ u)) rest
          have h2 : rest.length ≤ n := by
            simpa [Nat.succ_le_succ_iff] using hl
          omega
        have hmem := ih (rest.filter (fun x => x ≠ u)) hlen x hx2
        exact List.mem_cons_of_mem _ (List.mem_of_mem_filter hmem)

theorem specFirstSeenUrls_mem {l : List String} {x : String}
    (h : x ∈ specFirstSeenUrls l) : x ∈ l :=
  specFirstSeenUrls_mem_aux l.length l le_rfl x h

theorem specFirstSeenUrls_nodup_aux :
    ∀ (n : Nat) (l : List String), l.length ≤ n → (specFirstSeenUrls l).Nodup := by
  intro n
  induction n with
  | zero =>
    intro l hl
    have hnil : l = [] := List.eq_nil_of_length_eq_zero (Nat.le_zero.mp hl)
    subst hnil
    simp [specFirstSeenUrls]
  | succ n ih =>
    intro l hl
    cases l with
    | nil => simp [specFirstSeenUrls]
    | cons u rest =>
      have hlen : (rest.filter (fun x => x ≠ u)).length ≤ n := by
        have h1 := List.length_filter_le (fun x => decide (x ≠ u)) rest
        have h2 : rest.length ≤ n := by
          simpa [Nat.succ_le_succ_iff] using hl
        omega
      simp only [specFirstSeenUrls, List.nodup_cons]
      refine ⟨?_, ih _ hlen⟩
      intro hu
      have := specFirstSeenUrls_mem hu
      simp at this

theorem specFirstSeenUrls_nodup (l : List String) :
    (specFirstSeenUrls l).Nodup :=
  specFirstSeenUrls_nodup_aux l.length l le_rfl

theorem specFirstSeenUrls_covers_aux :
    ∀ (n : Nat) (l : List String), l.length ≤ n →
      ∀ x ∈ l, x ∈ specFirstSeenUrls l := by
  intro n
  induction n with
  | zero =>
    intro l hl x hx
    have hnil : l = [] := List.eq_nil_of_length_eq_zero (Nat.le_zero.mp hl)
    subst hnil
    simp at hx
  | succ n ih =>
    intro l hl x hx
    cases l with
    | nil => simp at hx
    | cons u rest =>
      simp only [specFirstSeenUrls, List.mem_cons]
      rcases List.mem_cons.mp hx with rfl | hx2
      · exact Or.inl rfl
      · by_cases hxu : x = u
        · exact Or.inl hxu
        · refine Or.inr ?_
          have hlen : (rest.filter (fun x => x ≠ u)).length ≤ n := by
            have h1 := List.length_filter_le (fun x => decide (x ≠ u)) rest
            have h2 : rest.length ≤ n := by
              simpa [Nat.succ_le_succ_iff] using hl
            omega
          refine ih _ hlen x ?_
          exact List.mem_filter.mpr ⟨hx2, by simpa using hxu⟩

theorem specFirstSeenUrls_covers {l : List String} {x : String}
    (h : x ∈ l) : x ∈ specFirstSeenUrls l :=
  specFirstSeenUrls_covers_aux l.length l le_rfl x h

/-- The url projection of the dedup loop of create_daily_brief, as a
function of the urls already seen and the output accumulated so far. -/
theorem dedupLoop_map_url :
    ∀ (l : List Article) (seen : List String) (acc : List Article),
      (dedupLoop l seen acc).map Article.url =
        acc.map Article.url ++
          specFirstSeenUrls ((l.map Article.url).filter (fun u => u ∉ seen)) := by
  intro l
  induction l with
  | nil =>
    intro seen acc
    simp [dedupLoop, specFirstSeenUrls]
  | cons a rest ih =>
    intro seen acc
    by_cases h : a.url ∈ seen
    · simp only [dedupLoop, if_pos h, List.map_cons, List.filter_cons]
      have hfalse : ¬ (decide (a.url ∉ seen) = true) := by simp [h]
      rw [if_neg hfalse]
      exact ih seen acc
    · simp only [dedupLoop, if_neg h, List.map_cons, List.filter_cons]
      have hdec : decide (a.url ∉ seen) = true := by simp [h]
      rw [if_pos hdec]
      rw [ih (a.url :: seen) (acc ++ [a])]
      have hpred :
          (fun u => decide (u ∉ a.url :: seen)) =
            (fun u => decide (u ≠ a.url) && decide (u ∉ seen)) := by
        funext u
        by_cases h1 : u = a.url <;> by_cases h2 : u ∈ seen <;> simp [h1, h2]
      rw [hpred]
      simp only [specFirstSeenUrls, List.filter_filter, List.map_append,
        List.map_cons, List.map_nil, List.append_assoc, List.singleton_append]

theorem uniqueArticles_map_url (l : List Article) :
    (uniqueArticles l).map Article.url = specFirstSeenUrls (l.map Article.url) := by
  have h := dedupLoop_map_url l [] []
  simpa [uniqueArticles] using h

/-! ## Lemmas about the per-article summarization loop -/

theorem summLoop_eq (o : Oracles) (cfg : Config) :
    ∀ (arts : List Article) (c : Nat) (acc : List ArticleSummary),
      summLoop o cfg arts c acc =
        (acc ++ summariesFrom o cfg c arts, c + arts.length) := by
  intro arts
  induction arts with
  | nil => intro c acc; simp [summLoop, summariesFrom]
  | cons a rest ih =>
    intro c acc
    cases hm : summarize_article o cfg c a none with
    | ok s =>
      simp only [summLoop, hm, summariesFrom, ih, List.append_assoc,
        List.singleton_append, List.length_cons, Prod.mk.injEq]
      exact ⟨trivial, by omega⟩
    | error e =>
      simp only [summLoop, hm, summariesFrom, ih, List.length_cons, Prod.mk.injEq]
      exact ⟨trivial, by omega⟩

theorem summariesFrom_all_ok (o : Oracles) (cfg : Config)
    (hchat : ∀ (i : Nat) (p : String) (mt : Int), ∃ s, o.chat i p mt = Except.ok s) :
    ∀ (arts : List Article) (c : Nat),
      (summariesFrom o cfg c arts).map ArticleSummary.url =
        arts.map Article.url := by
  intro arts
  induction arts with
  | nil => intro c; simp [summariesFrom]
  | cons a rest ih =>
    intro c
    obtain ⟨s, hs⟩ := hchat c (mkPrompt cfg a) (pyOrInt none cfg.max_tokens)
    have hsum : summarize_article o cfg c a none = Except.ok (pyStrip s) := by
      simp [summarize_article, hs]
    simp [summariesFrom, hsum, mkASummary, ih]

theorem summariesFrom_success_mem (o : Oracles) (cfg : Config) :
    ∀ (arts : List Article) (c i : Nat) (hi : i < arts.length) (s : String),
      summarize_article o cfg (c + i) (arts.get ⟨i, hi⟩) none = Except.ok s →
      mkASummary (arts.get ⟨i, hi⟩) s ∈ summariesFrom o cfg c arts := by
  intro arts
  induction arts with
  | nil => intro c i hi; simp at hi
  | cons a rest ih =>
    intro c i hi s hsum
    cases i with
    | zero =>
      simp only [List.get] at hsum ⊢
      rw [Nat.add_zero] at hsum
      simp [summariesFrom, hsum]
    | succ i =>
      have hi2 : i < rest.length := Nat.lt_of_succ_lt_succ hi
      have hsum2 : summarize_article o cfg ((c + 1) + i) (rest.get ⟨i, hi2⟩) none =
          Except.ok s := by
        have harith : (c + 1) + i = c + (i + 1) := by omega
        rw [harith]
        exact hsum
      have hmem := ih (c + 1) i hi2 s hsum2
      cases hm : summarize_article o cfg c a none with
      | ok s0 => simp only [summariesFrom, hm]; exact List.mem_cons_of_mem _ hmem
      | error e => simpa only [summariesFrom, hm] using hmem

theorem summariesFrom_mem_char (o : Oracles) (cfg : Config) :
    ∀ (arts : List Article) (c : Nat) (a1 : ArticleSummary),
      a1 ∈ summariesFrom o cfg c arts →
      ∃ (i : Nat) (hi : i < arts.length),
        a1.url = (arts.get ⟨i, hi⟩).url ∧
        summarize_article o cfg (c + i) (arts.get ⟨i, hi⟩) none =
          Except.ok a1.summary := by
  intro arts
  induction arts with
  | nil => intro c a1 h; simp [summariesFrom] at h
  | cons a rest ih =>
    intro c a1 h
    cases hm : summarize_article o cfg c a none with
    | ok s0 =>
      rw [summariesFrom, hm] at h
      rcases List.mem_cons.mp h with rfl | h2
      · refine ⟨0, Nat.succ_pos _, rfl, ?_⟩
        rw [Nat.add_zero]
        exact hm
      · obtain ⟨i, hi, hurl, hsum⟩ := ih (c + 1) a1 h2
        refine ⟨i + 1, Nat.succ_lt_succ hi, hurl, ?_⟩
        have harith : c + (i + 1) = (c + 1) + i := by omega
        rw [harith]
        exact hsum
    | error e =>
      rw [summariesFrom, hm] at h
      obtain ⟨i, hi, hurl, hsum⟩ := ih (c + 1) a1 h
      refine ⟨i + 1, Nat.succ_lt_succ hi, hurl, ?_⟩
      have harith : c + (i + 1) = (c + 1) + i := by omega
      rw [harith]
      exact hsum

/-- A single-topic cycle whose fetch succeeds: the brief maps the topic
to the summaries of the deduplicated batch, the chat calls being
numbered from 0. -/
theorem create_daily_brief_single (o : Oracles) (cfg : Config) (now apt : Int)
    (t : String) (arts : List Article)
    (hf : o.search 0 (mkRequest cfg now t (some apt) none) = Except.ok arts) :
    create_daily_brief o cfg now (some [t]) apt =
      Except.ok [(t, summariesFrom o cfg 0 (uniqueArticles arts))] := by
  unfold create_daily_brief
  simp only [Option.getD_some]
  by_cases hlen : arts.length = 0
  · have harts : arts = [] := List.eq_nil_of_length_eq_zero hlen
    subst harts
    simp [briefLoop, fetch_news, hf, dictSet, uniqueArticles, dedupLoop,
      summariesFrom]
  · simp only [briefLoop, fetch_news, hf, if_neg hlen]
    rw [summLoop_eq]
    simp [briefLoop, dictSet]

/-! ## Claim C1 (per-article failure tolerance) -/

/-- C1: in a topic whose fetch succeeded, per-article summarization
failures are tolerated: the cycle still completes with a brief entry
for the topic; that entry is exactly the summaries accumulated over
the unique articles in order; every unique article whose chat call
succeeds appears with its summary; and a unique article whose chat
call fails is dropped, its url absent from the entry. -/
theorem create_daily_brief_drops_failed_summaries (o : Oracles) (cfg : Config)
    (now apt : Int) (t : String) (arts : List Article)
    (hf : o.search 0 (mkRequest cfg now t (some apt) none) = Except.ok arts) :
    ∃ ts, create_daily_brief o cfg now (some [t]) apt = Except.ok [(t, ts)] ∧
      ts = summariesFrom o cfg 0 (uniqueArticles arts) ∧
      (∀ (i : Nat) (hi : i < (uniqueArticles arts).length) (s : String),
          summarize_article o cfg i ((uniqueArticles arts).get ⟨i, hi⟩) none =
            Except.ok s →
          mkASummary ((uniqueArticles arts).get ⟨i, hi⟩) s ∈ ts) ∧
      (∀ (i : Nat) (hi : i < (uniqueArticles arts).length) (e : PyError),
          summarize_article o cfg i ((uniqueArticles arts).get ⟨i, hi⟩) none =
            Except.error e →
          ((uniqueArticles arts).get ⟨i, hi⟩).url ∉
            ts.map ArticleSummary.url) := by
  refine ⟨summariesFrom o cfg 0 (uniqueArticles arts),
    create_daily_brief_single o cfg now apt t arts hf, rfl, ?_, ?_⟩
  · intro i hi s hsum
    have h0 : summarize_article o cfg (0 + i) ((uniqueArticles arts).get ⟨i, hi⟩)
        none = Except.ok s := by
      rw [Nat.zero_add]
      exact hsum
    exact summariesFrom_success_mem o cfg (uniqueArticles arts) 0 i hi s h0
  · intro i hi e hsum hmem
    rw [List.mem_map] at hmem
    obtain ⟨a1, ha1, hurl⟩ := hmem
    obtain ⟨j, hj, hurl2, hsum2⟩ :=
      summariesFrom_mem_char o cfg (uniqueArticles arts) 0 a1 ha1
    rw [Nat.zero_add] at hsum2
    have hnd : ((uniqueArticles arts).map Article.url).Nodup := by
      rw [uniqueArticles_map_url]
      exact specFirstSeenUrls_nodup _
    have him : i < ((uniqueArticles arts).map Article.url).length := by
      simpa using hi
    have hjm : j < ((uniqueArticles arts).map Article.url).length := by
      simpa using hj
    have hg : ((uniqueArticles arts).map Article.url).get ⟨i, him⟩ =
        ((uniqueArticles arts).map Article.url).get ⟨j, hjm⟩ := by
      simp only [List.get_eq_getElem, List.getElem_map]
      rw [show (uniqueArticles arts)[i] = (uniqueArticles arts).get ⟨i, hi⟩ from rfl,
        show (uniqueArticles arts)[j] = (uniqueArticles arts).get ⟨j, hj⟩ from rfl]
      rw [← hurl, hurl2]
    have hij : i = j := by
      have hfin := hnd.get_inj_iff.mp hg
      exact congrArg Fin.val hfin
    subst hij
    rw [hsum] at hsum2
    exact Except.noConfusion hsum2

theorem create_daily_brief_drops_failed_summaries_witness :
    ∃ ts, create_daily_brief oOneFailing defaultCfg 0 (some ["news"]) 3 =
        Except.ok [("news", ts)] ∧
      ts = [mkASummary artA "sum", mkASummary artC "sum"] := by
  obtain ⟨ts, h1, h2, _, _⟩ :=
    create_daily_brief_drops_failed_summaries oOneFailing defaultCfg 0 3 "news"
      [artA, artB, artC] rfl
  exact ⟨ts, h1, h2.trans (by rfl)⟩

/-! ## Claim C2 (per-topic url dedup) -/

/-- C2: for a topic whose fetch succeeded and whose summarizations all
succeed, the produced ArticleSummary sequence carries exactly the
distinct urls of the fetched batch, each once, in first-seen order
(survivors keep the adapter order, later duplicates are dropped). -/
theorem create_daily_brief_dedupes_urls_first_seen (o : Oracles) (cfg : Config)
    (now apt : Int) (t : String) (arts : List Article)
    (hf : o.search 0 (mkRequest cfg now t (some apt) none) = Except.ok arts)
    (hchat : ∀ (i : Nat) (p : String) (mt : Int), ∃ s, o.chat i p mt = Except.ok s) :
    ∃ ts, create_daily_brief o cfg now (some [t]) apt = Except.ok [(t, ts)] ∧
      ts.map ArticleSummary.url = specFirstSeenUrls (arts.map Article.url) ∧
      (ts.map ArticleSummary.url).Nodup ∧
      (∀ u, u ∈ ts.map ArticleSummary.url ↔ u ∈ arts.map Article.url) := by
  refine ⟨summariesFrom o cfg 0 (uniqueArticles arts),
    create_daily_brief_single o cfg now apt t arts hf, ?_, ?_, ?_⟩
  · rw [summariesFrom_all_ok o cfg hchat, uniqueArticles_map_url]
  · rw [summariesFrom_all_ok o cfg hchat, uniqueArticles_map_url]
    exact specFirstSeenUrls_nodup _
  · intro u
    rw [summariesFrom_all_ok o cfg hchat, uniqueArticles_map_url]
    exact ⟨fun h => specFirstSeenUrls_mem h, fun h => specFirstSeenUrls_covers h⟩

theorem create_daily_brief_dedupes_urls_first_seen_witness :
    ∃ ts, create_daily_brief oDupBatch defaultCfg 0 (some ["tech"]) 5 =
        Except.ok [("tech", ts)] ∧
      ts.map ArticleSummary.url = ["http://a", "http://b", "http://c"] := by
  obtain ⟨ts, h1, h2, _, _⟩ :=
    create_daily_brief_dedupes_urls_first_seen oDupBatch defaultCfg 0 5 "tech"
      [artA, artB, artA2, artC] rfl (fun _ _ _ => ⟨"sum", rfl⟩)
  refine ⟨ts, h1, h2.trans ?_⟩
  simp [specFirstSeenUrls, artA, artB, artA2, artC]

/-! ## Lemmas about the per-topic loop of create_daily_brief -/

theorem briefLoop_append (o : Oracles) (cfg : Config) (now apt : Int) :
    ∀ (xs ys : List String) (s c : Nat) (b : Brief),
      briefLoop o cfg now apt (xs ++ ys) s c b =
        match briefLoop o cfg now apt xs s c b with
        | Except.error e => Except.error e
        | Except.ok (b1, s1, c1) => briefLoop o cfg now apt ys s1 c1 b1 := by
  intro xs
  induction xs with
  | nil => intro ys s c b; rfl
  | cons t rest ih =>
    intro ys s c b
    simp only [List.cons_append, briefLoop, fetch_news]
    cases o.search s (mkRequest cfg now t (some apt) none) with
    | error e => rfl
    | ok articles =>
      by_cases hlen : articles.length = 0
      · simp only [if_pos hlen]
        exact ih ys (s + 1) c (dictSet b t [])
      · simp only [if_neg hlen]
        cases summLoop o cfg (uniqueArticles articles) c [] with
        | mk tsums c1 => exact ih ys (s + 1) c1 (dictSet b t tsums)

theorem briefLoop_ok_searchIdx (o : Oracles) (cfg : Config) (now apt : Int) :
    ∀ (ts : List String) (s c : Nat) (b : Brief) (b1 : Brief) (s1 c1 : Nat),
      briefLoop o cfg now apt ts s c b = Except.ok (b1, s1, c1) →
      s1 = s + ts.length := by
  intro ts
  induction ts with
  | nil =>
    intro s c b b1 s1 c1 h
    simp only [briefLoop, Except.ok.injEq, Prod.mk.injEq] at h
    simp only [List.length_nil]
    omega
  | cons t rest ih =>
    intro s c b b1 s1 c1 h
    simp only [briefLoop, fetch_news] at h
    cases hf : o.search s (mkRequest cfg now t (some apt) none) with
    | error e => rw [hf] at h; exact absurd h (by simp)
    | ok articles =>
      rw [hf] at h
      dsimp only at h
      by_cases hlen : articles.length = 0
      · rw [if_pos hlen] at h
        have := ih (s + 1) c (dictSet b t []) b1 s1 c1 h
        simp only [List.length_cons]
        omega
      · rw [if_neg hlen] at h
        rcases hsl : summLoop o cfg (uniqueArticles articles) c [] with ⟨tsums, c2⟩
        rw [hsl] at h
        have := ih (s + 1) c2 (dictSet b t tsums) b1 s1 c1 h
        simp only [List.length_cons]
        omega

theorem briefLoop_ok_lookup_not_mem (o : Oracles) (cfg : Config) (now apt : Int) :
    ∀ (ts : List String) (s c : Nat) (b : Brief) (b1 : Brief) (s1 c1 : Nat),
      briefLoop o cfg now apt ts s c b = Except.ok (b1, s1, c1) →
      ∀ t, t ∉ ts → dictLookup b1 t = dictLookup b t := by
  intro ts
  induction ts with
  | nil =>
    intro s c b b1 s1 c1 h t ht
    simp only [briefLoop, Except.ok.injEq, Prod.mk.injEq] at h
    rw [← h.1]
  | cons t0 rest ih =>
    intro s c b b1 s1 c1 h t ht
    have hne : t ≠ t0 := fun hh => ht (hh ▸ List.mem_cons_self _ _)
    have hrest : t ∉ rest := fun hh => ht (List.mem_cons_of_mem _ hh)
    simp only [briefLoop, fetch_news] at h
    cases hf : o.search s (mkRequest cfg now t0 (some apt) none) with
    | error e => rw [hf] at h; exact absurd h (by simp)
    | ok articles =>
      rw [hf] at h
      dsimp only at h
      by_cases hlen : articles.length = 0
      · rw [if_pos hlen] at h
        have hstep := ih (s + 1) c (dictSet b t0 []) b1 s1 c1 h t hrest
        rw [hstep, dictLookup_dictSet_ne b t0 t [] hne]
      · rw [if_neg hlen] at h
        rcases hsl : summLoop o cfg (uniqueArticles articles) c [] with ⟨tsums, c2⟩
        rw [hsl] at h
        have hstep := ih (s + 1) c2 (dictSet b t0 tsums) b1 s1 c1 h t hrest
        rw [hstep, dictLookup_dictSet_ne b t0 t tsums hne]

theorem dictLookup_dictSet_isSome {α : Type} (b : List (String × α))
    (k t : String) (v : α) :
    (dictLookup (dictSet b k v) t).isSome = true ↔
      t = k ∨ (dictLookup b t).isSome = true := by
  by_cases h : t = k
  · subst h
    simp [dictLookup_dictSet_self]
  · rw [dictLookup_dictSet_ne b k t v h]
    simp [h]

theorem briefLoop_ok_isSome_iff (o : Oracles) (cfg : Config) (now apt : Int) :
    ∀ (ts : List String) (s c : Nat) (b : Brief) (b1 : Brief) (s1 c1 : Nat),
      briefLoop o cfg now apt ts s c b = Except.ok (b1, s1, c1) →
      ∀ t, (dictLookup b1 t).isSome = true ↔
        t ∈ ts ∨ (dictLookup b t).isSome = true := by
  intro ts
  induction ts with
  | nil =>
    intro s c b b1 s1 c1 h t
    simp only [briefLoop, Except.ok.injEq, Prod.mk.injEq] at h
    rw [← h.1]
    simp
  | cons t0 rest ih =>
    intro s c b b1 s1 c1 h t
    simp only [briefLoop, fetch_news] at h
    cases hf : o.search s (mkRequest cfg now t0 (some apt) none) with
    | error e => rw [hf] at h; exact absurd h (by simp)
    | ok articles =>
      rw [hf] at h
      dsimp only at h
      by_cases hlen : articles.length = 0
      · rw [if_pos hlen] at h
        rw [ih (s + 1) c (dictSet b t0 []) b1 s1 c1 h t,
          dictLookup_dictSet_isSome b t0 t []]
        simp only [List.mem_cons]
        tauto
      · rw [if_neg hlen] at h
        rcases hsl : summLoop o cfg (uniqueArticles articles) c [] with ⟨tsums, c2⟩
        rw [hsl] at h
        rw [ih (s + 1) c2 (dictSet b t0 tsums) b1 s1 c1 h t,
          dictLookup_dictSet_isSome b t0 t tsums]
        simp only [List.mem_cons]
        tauto

theorem briefLoop_ok_keys_nodup (o : Oracles) (cfg : Config) (now apt : Int) :
    ∀ (ts : List String) (s c : Nat) (b : Brief) (b1 : Brief) (s1 c1 : Nat),
      briefLoop o cfg now apt ts s c b = Except.ok (b1, s1, c1) →
      (dictKeys b).Nodup → (dictKeys b1).Nodup := by
  intro ts
  induction ts with
  | nil =>
    intro s c b b1 s1 c1 h hb
    simp only [briefLoop, Except.ok.injEq, Prod.mk.injEq] at h
    rw [← h.1]
    exact hb
  | cons t0 rest ih =>
    intro s c b b1 s1 c1 h hb
    simp only [briefLoop, fetch_news] at h
    cases hf : o.search s (mkRequest cfg now t0 (some apt) none) with
    | error e => rw [hf] at h; exact absurd h (by simp)
    | ok articles =>
      rw [hf] at h
      dsimp only at h
      by_cases hlen : articles.length = 0
      · rw [if_pos hlen] at h
        exact ih (s + 1) c (dictSet b t0 []) b1 s1 c1 h
          (dictKeys_dictSet_nodup b t0 [] hb)
      · rw [if_neg hlen] at h
        rcases hsl : summLoop o cfg (uniqueArticles articles) c [] with ⟨tsums, c2⟩
        rw [hsl] at h
        exact ih (s + 1) c2 (dictSet b t0 tsums) b1 s1 c1 h
          (dictKeys_dictSet_nodup b t0 tsums hb)

theorem briefLoop_completes (o : Oracles) (cfg : Config) (now apt : Int) :
    ∀ (ts : List String) (s c : Nat) (b : Brief),
      (∀ (i : Nat) (t1 : String), ts.get? i = some t1 →
        ∃ arts, o.search (s + i) (mkRequest cfg now t1 (some apt) none) =
          Except.ok arts) →
      ∃ b1 c1, briefLoop o cfg now apt ts s c b =
        Except.ok (b1, s + ts.length, c1) := by
  intro ts
  induction ts with
  | nil =>
    intro s c b _
    exact ⟨b, c, by simp [briefLoop]⟩
  | cons t rest ih =>
    intro s c b hf
    obtain ⟨arts, harts⟩ := hf 0 t rfl
    rw [Nat.add_zero] at harts
    have hrest : ∀ (i : Nat) (t1 : String), rest.get? i = some t1 →
        ∃ arts1, o.search ((s + 1) + i) (mkRequest cfg now t1 (some apt) none) =
          Except.ok arts1 := by
      intro i t1 hi
      have := hf (i + 1) t1 hi
      have harith : s + (i + 1) = (s + 1) + i := by omega
      rw [harith] at this
      exact this
    simp only [briefLoop, fetch_news, harts]
    by_cases hlen : arts.length = 0
    · rw [if_pos hlen]
      obtain ⟨b1, c1, hrec⟩ := ih (s + 1) c (dictSet b t []) hrest
      refine ⟨b1, c1, ?_⟩
      rw [hrec]
      have harith : s + 1 + rest.length = s + (t :: rest).length := by
        simp only [List.length_cons]
        omega
      rw [harith]
    · rw [if_neg hlen]
      rcases hsl : summLoop o cfg (uniqueArticles arts) c [] with ⟨tsums, c2⟩
      obtain ⟨b1, c1, hrec⟩ := ih (s + 1) c2 (dictSet b t tsums) hrest
      refine ⟨b1, c1, ?_⟩
      rw [hrec]
      have harith : s + 1 + rest.length = s + (t :: rest).length := by
        simp only [List.length_cons]
        omega
      rw [harith]

/-! ## Claim C4 (a topic fetch error aborts the whole cycle) -/

/-- C4: the per-topic fetch call of create_daily_brief is not wrapped
in its own error handler: if the fetches of the earlier topics succeed
and the fetch of some topic raises, the raw error propagates out of
the per-topic iteration and the whole cycle aborts with it - no Brief
is produced. -/
theorem fetch_error_aborts_cycle (o : Oracles) (cfg : Config) (now apt : Int)
    (pre post : List String) (t : String) (e : PyError)
    (hpre : ∀ (i : Nat) (t1 : String), pre.get? i = some t1 →
      ∃ arts, o.search i (mkRequest cfg now t1 (some apt) none) = Except.ok arts)
    (ht : o.search pre.length (mkRequest cfg now t (some apt) none) =
      Except.error e) :
    create_daily_brief o cfg now (some (pre ++ t :: post)) apt =
      Except.error e := by
  unfold create_daily_brief
  simp only [Option.getD_some]
  rw [briefLoop_append o cfg now apt pre (t :: post) 0 0 []]
  have hpre0 : ∀ (i : Nat) (t1 : String), pre.get? i = some t1 →
      ∃ arts, o.search (0 + i) (mkRequest cfg now t1 (some apt) none) =
        Except.ok arts := by
    intro i t1 hi
    rw [Nat.zero_add]
    exact hpre i t1 hi
  obtain ⟨b1, c1, hb1⟩ := briefLoop_completes o cfg now apt pre 0 0 [] hpre0
  rw [hb1]
  dsimp only
  simp only [briefLoop, fetch_news, Nat.zero_add, ht]

theorem fetch_error_aborts_cycle_witness :
    create_daily_brief oSecondFetchFails defaultCfg 0 (some ["t1", "t2"]) 5 =
      Except.error (PyError.adapter "search down") := by
  have h := fetch_error_aborts_cycle oSecondFetchFails defaultCfg 0 5
    ["t1"] [] "t2" (PyError.adapter "search down") ?hpre rfl
  · simpa using h
  case hpre =>
    intro i t1 hi
    cases i with
    | zero => exact ⟨[artA], rfl⟩
    | succ i => simp [List.get?] at hi

/-! ## Claim C6 (a topic with zero articles keeps its key) -/

/-- C6: when the fetch of one topic returns zero articles (and every
fetch of the cycle succeeds), the cycle completes, the brief maps that
topic to the empty list, and the topics after it are still processed
and present in the brief. -/
theorem empty_fetch_yields_empty_topic_entry (o : Oracles) (cfg : Config)
    (now apt : Int) (pre post : List String) (t : String)
    (hall : ∀ (i : Nat) (t1 : String), (pre ++ t :: post).get? i = some t1 →
      ∃ arts, o.search i (mkRequest cfg now t1 (some apt) none) = Except.ok arts)
    (hempty : o.search pre.length (mkRequest cfg now t (some apt) none) =
      Except.ok [])
    (hpost : t ∉ post) :
    ∃ b, create_daily_brief o cfg now (some (pre ++ t :: post)) apt =
        Except.ok b ∧
      dictLookup b t = some [] ∧
      ∀ t1 ∈ post, (dictLookup b t1).isSome = true := by
  unfold create_daily_brief
  simp only [Option.getD_some]
  rw [briefLoop_append o cfg now apt pre (t :: post) 0 0 []]
  have hpre0 : ∀ (i : Nat) (t1 : String), pre.get? i = some t1 →
      ∃ arts, o.search (0 + i) (mkRequest cfg now t1 (some apt) none) =
        Except.ok arts := by
    intro i t1 hi
    rw [Nat.zero_add]
    have hlt : i < pre.length := by
      rcases List.get?_eq_some.mp hi with ⟨hw, _⟩
      exact hw
    refine hall i t1 ?_
    rw [List.get?_append hlt]
    exact hi
  obtain ⟨b0, c0, hb0⟩ := briefLoop_completes o cfg now apt pre 0 0 [] hpre0
  rw [hb0]
  dsimp only
  simp only [briefLoop, fetch_news, Nat.zero_add, hempty]
  rw [if_pos (show ([] : List Article).length = 0 from rfl)]
  have hshift : ∀ (i : Nat) (t1 : String), post.get? i = some t1 →
      ∃ arts, o.search ((pre.length + 1) + i)
        (mkRequest cfg now t1 (some apt) none) = Except.ok arts := by
    intro i t1 hi
    refine hall (pre.length + 1 + i) t1 ?_
    rw [List.get?_append_right (by omega)]
    have harith : pre.length + 1 + i - pre.length = i + 1 := by omega
    rw [harith]
    simpa using hi
  obtain ⟨b2, c2, hb2⟩ :=
    briefLoop_completes o cfg now apt post (pre.length + 1) c0
      (dictSet b0 t []) hshift
  rw [hb2]
  refine ⟨b2, rfl, ?_, ?_⟩
  · rw [briefLoop_ok_lookup_not_mem o cfg now apt post (pre.length + 1) c0
      (dictSet b0 t []) b2 (pre.length + 1 + post.length) c2 hb2 t hpost]
    exact dictLookup_dictSet_self b0 t []
  · intro t1 ht1
    rw [briefLoop_ok_isSome_iff o cfg now apt post (pre.length + 1) c0
      (dictSet b0 t []) b2 (pre.length + 1 + post.length) c2 hb2 t1]
    exact Or.inl ht1

theorem empty_fetch_yields_empty_topic_entry_witness :
    ∃ b, create_daily_brief oSecondFetchEmpty defaultCfg 0 (some ["x", "y", "z"]) 5 =
        Except.ok b ∧
      dictLookup b "y" = some [] ∧
      ∀ t1 ∈ ["z"], (dictLookup b t1).isSome = true := by
  have h := empty_fetch_yields_empty_topic_entry oSecondFetchEmpty defaultCfg 0 5
    ["x"] ["z"] "y" ?hall rfl (by simp)
  · simpa using h
  case hall =>
    intro i t1 hi
    by_cases h1 : i = 1
    · subst h1
      exact ⟨[], rfl⟩
    · refine ⟨[artA], ?_⟩
      simp [oSecondFetchEmpty, h1]

/-! ## Claim C9 (duplicate topics: one key, last occurrence wins) -/

/-- C9: the brief dict holds one entry per distinct topic string; with
a duplicated topic every occurrence still issues its own fetch (the
search call counter advances once per occurrence), and the value
stored under the key after the whole run is the one computed at the
last occurrence - the intermediate brief reached right after that
occurrence is what survives, earlier values having been overwritten. -/
theorem duplicate_topics_last_occurrence_wins (o : Oracles) (cfg : Config)
    (now apt : Int) (pre post : List String) (t : String)
    (b1 b2 : Brief) (s1 c1 s2 c2 : Nat)
    (hno : t ∉ post)
    (h1 : briefLoop o cfg now apt (pre ++ [t]) 0 0 [] = Except.ok (b1, s1, c1))
    (h2 : briefLoop o cfg now apt post s1 c1 b1 = Except.ok (b2, s2, c2)) :
    create_daily_brief o cfg now (some (pre ++ [t] ++ post)) apt =
      Except.ok b2 ∧
    dictLookup b2 t = dictLookup b1 t ∧
    (dictLookup b1 t).isSome = true ∧
    (dictKeys b2).Nodup ∧
    (∀ t1, (dictLookup b2 t1).isSome = true ↔ t1 ∈ pre ++ [t] ++ post) ∧
    s2 = (pre ++ [t] ++ post).length := by
  refine ⟨?_, ?_, ?_, ?_, ?_, ?_⟩
  · unfold create_daily_brief
    simp only [Option.getD_some]
    rw [briefLoop_append o cfg now apt (pre ++ [t]) post 0 0 [], h1]
    dsimp only
    rw [h2]
  · exact briefLoop_ok_lookup_not_mem o cfg now apt post s1 c1 b1 b2 s2 c2 h2
      t hno
  · rw [briefLoop_ok_isSome_iff o cfg now apt (pre ++ [t]) 0 0 [] b1 s1 c1 h1 t]
    exact Or.inl (List.mem_append_right pre (List.mem_singleton_self t))
  · refine briefLoop_ok_keys_nodup o cfg now apt post s1 c1 b1 b2 s2 c2 h2 ?_
    refine briefLoop_ok_keys_nodup o cfg now apt (pre ++ [t]) 0 0 [] b1 s1 c1 h1 ?_
    simp [dictKeys]
  · intro t1
    rw [briefLoop_ok_isSome_iff o cfg now apt post s1 c1 b1 b2 s2 c2 h2 t1,
      briefLoop_ok_isSome_iff o cfg now apt (pre ++ [t]) 0 0 [] b1 s1 c1 h1 t1]
    simp only [dictLookup, List.mem_append, List.mem_singleton]
    constructor
    · intro hc
      rcases hc with hc | hc | hc
      · exact Or.inr hc
      · exact Or.inl hc
      · simp at hc
    · intro hc
      rcases hc with hc | hc
      · exact Or.inr (Or.inl hc)
      · exact Or.inl hc
  · have e1 := briefLoop_ok_searchIdx o cfg now apt (pre ++ [t]) 0 0 [] b1 s1 c1 h1
    have e2 := briefLoop_ok_searchIdx o cfg now apt post s1 c1 b1 b2 s2 c2 h2
    simp only [List.length_append, List.length_cons, List.length_nil,
      List.length_singleton] at e1 e2 ⊢
    omega

theorem duplicate_topics_last_occurrence_wins_witness :
    create_daily_brief oTwoBatches defaultCfg 0 (some ["a", "a"]) 5 =
      Except.ok [("a", [mkASummary artB "sum"])] := by
  have h := duplicate_topics_last_occurrence_wins oTwoBatches defaultCfg 0 5
    ["a"] [] "a" [("a", [mkASummary artB "sum"])] [("a", [mkASummary artB "sum"])]
    2 2 2 2 (by simp) (by rfl) (by rfl)
  simpa using h.1

/-! ## Claim C3 (scheduler loop survives a failing cycle) -/

theorem run_news_summarizer_never_raises (r : Except PyError Unit) :
    run_news_summarizer r = Except.ok () := by
  cases r <;> rfl

/-- The polling loop never exits, whatever each cycle does: every run
of n ticks ends normally. -/
theorem loopRun_never_exits :
    ∀ (r : Except PyError Unit) (n : Nat) (st : SchedState),
      ∃ p, loopRun r n st = Except.ok p := by
  intro r n
  induction n with
  | zero => intro st; exact ⟨(st, 0), rfl⟩
  | succ n ih =>
    intro st
    have ht : ∃ q, loopTick r st = Except.ok q := by
      unfold loopTick
      by_cases h : st.nextRun ≤ st.now
      · rw [if_pos h, run_news_summarizer_never_raises]
        exact ⟨_, rfl⟩
      · rw [if_neg h]
        exact ⟨_, rfl⟩
    obtain ⟨⟨s1, ran⟩, hq⟩ := ht
    obtain ⟨⟨s2, cnt⟩, hr⟩ := ih s1
    exact ⟨(s2, cnt + (if ran then 1 else 0)), by simp only [loopRun, hq, hr]⟩

theorem waitTicks_eq_zero_iff (s : SchedState) :
    waitTicks s = 0 ↔ s.nextRun ≤ s.now := by
  unfold waitTicks pollInterval
  omega

theorem due_finalIdle (s : SchedState) :
    (finalIdle s).nextRun ≤ (finalIdle s).now := by
  unfold finalIdle waitTicks pollInterval
  dsimp only
  omega

theorem waitTicks_idleAdvance (s : SchedState) (h : ¬ s.nextRun ≤ s.now) :
    waitTicks { now := s.now + pollInterval, nextRun := s.nextRun } =
      waitTicks s - 1 := by
  unfold waitTicks pollInterval
  dsimp only
  omega

/-- A due tick fires a cycle (also when the cycle raises: the error is
swallowed by run_news_summarizer) and reschedules the job. -/
theorem loopTick_due (r : Except PyError Unit) (s : SchedState)
    (h : s.nextRun ≤ s.now) :
    loopTick r s = Except.ok (afterFire s, true) := by
  unfold loopTick afterFire
  rw [if_pos h, run_news_summarizer_never_raises]

/-- While the fire time is in the future the loop just polls: running
exactly waitTicks ticks triggers no cycle and lands on the first due
state. -/
theorem loopRun_idle (r : Except PyError Unit) :
    ∀ (n : Nat) (s : SchedState), waitTicks s = n →
      loopRun r n s = Except.ok (finalIdle s, 0) := by
  intro n
  induction n with
  | zero =>
    intro s hn
    simp only [loopRun]
    unfold finalIdle
    rw [hn]
    cases s with
    | mk now nextRun => simp
  | succ n ih =>
    intro s hn
    have hnotdue : ¬ s.nextRun ≤ s.now := by
      intro h
      rw [(waitTicks_eq_zero_iff s).mpr h] at hn
      exact Nat.succ_ne_zero n hn.symm
    simp only [loopRun, loopTick, if_neg hnotdue]
    have hwa : waitTicks { now := s.now + pollInterval, nextRun := s.nextRun } = n := by
      rw [waitTicks_idleAdvance s hnotdue, hn]
      omega
    rw [ih _ hwa]
    have hfi : finalIdle { now := s.now + pollInterval, nextRun := s.nextRun } =
        finalIdle s := by
      unfold finalIdle
      rw [hwa]
      simp only [SchedState.mk.injEq]
      refine ⟨?_, trivial⟩
      rw [hn]
      unfold pollInterval
      omega
    rw [hfi]
    simp

/-- C3: at a due tick whose cycle raises, the exception is caught: the
tick completes normally (the loop never exits, whatever the cycles
do), a cycle is triggered, the loop returns to polling (waitTicks
further ticks, none firing), reaches a due state again and the next
due tick triggers a cycle again. -/
theorem scheduler_loop_survives_cycle_error (e : PyError) (s : SchedState)
    (h : s.nextRun ≤ s.now) :
    (∀ (r : Except PyError Unit) (n : Nat) (st : SchedState),
        ∃ p, loopRun r n st = Except.ok p) ∧
    loopTick (Except.error e) s = Except.ok (afterFire s, true) ∧
    loopRun (Except.error e) (waitTicks (afterFire s)) (afterFire s) =
      Except.ok (finalIdle (afterFire s), 0) ∧
    (finalIdle (afterFire s)).nextRun ≤ (finalIdle (afterFire s)).now ∧
    loopTick (Except.error e) (finalIdle (afterFire s)) =
      Except.ok (afterFire (finalIdle (afterFire s)), true) :=
  ⟨loopRun_never_exits, loopTick_due _ s h, loopRun_idle _ _ _ rfl,
    due_finalIdle _, loopTick_due _ _ (due_finalIdle _)⟩

theorem scheduler_loop_survives_cycle_error_witness :
    loopTick (Except.error (PyError.adapter "boom")) ⟨0, 0⟩ =
      Except.ok (⟨60, 259200⟩, true) ∧
    loopRun (Except.error (PyError.adapter "boom"))
        (waitTicks ⟨60, 259200⟩) ⟨60, 259200⟩ =
      Except.ok (finalIdle ⟨60, 259200⟩, 0) ∧
    loopTick (Except.error (PyError.adapter "boom")) (finalIdle ⟨60, 259200⟩) =
      Except.ok (afterFire (finalIdle ⟨60, 259200⟩), true) := by
  have h := scheduler_loop_survives_cycle_error (PyError.adapter "boom") ⟨0, 0⟩
    (by decide)
  exact ⟨h.2.1, h.2.2.1, h.2.2.2.2⟩

end NewsScraper
